import Mathlib

/-!
Shallow embedding of the `shard` repository's SQL lexer and parser front end
(`src/syntax/token.rs`, `src/syntax/lexer.rs`, `src/syntax/parser.rs`,
`src/syntax/ast/mod.rs`, `src/syntax/ast/columns.rs`).

Rust `String` is modelled by Lean `String`, `char` by `Char`, `Vec<T>` and
`VecDeque<T>` by `List`, `Result<T, E>` by `Except E T`.  Rust panics
(`unwrap` / `expect` on an `Err` or `None`) are modelled by an explicit
`panicked` constructor of the result type, so that "never panics" is a
provable statement.  The Rust lexer error is a formatted string built from
the offending character, the line, the column, and an expected-input
description; it is modelled by the structure `LexError` carrying exactly
those four format arguments.
-/

namespace Shard

/-- Tokens, from `token.rs` (`enum Token`). -/
inductive Token where
  | SELECT | FROM | WHERE | ORDER | INSERT | INTO | CREATE | TABLE | DROP
  | IF | EXISTS | NOT | NULL | DEFAULT | SERIAL | AND | OR
  | INTEGER | TEXT | FLOAT | BLOB
  | EQUAL | NOTEQUAL | LESSTHAN | LESSTHANOREQUAL | GREATERTHAN | GREATERTHANOREQUAL
  | PLUS | MINUS | FORWARDSLASH
  | LEFTPAREN | RIGHTPAREN | LEFTBRACKET | RIGHTBRACKET
  | DOT | COMMA | SEMICOLON | ASTERISK | AMPERSAND | PIPE | DOUBLEPIPE
  | StringLiteral (s : String)
  | NumberLiteral (s : String)
  | Identifier (s : String)
deriving DecidableEq

/-- The character `Token::from_char` table, from `token.rs`. -/
def Token.from_char (c : Char) : Option Token :=
  if c = '=' then some .EQUAL
  else if c = '<' then some .LESSTHAN
  else if c = '>' then some .GREATERTHAN
  else if c = '+' then some .PLUS
  else if c = '-' then some .MINUS
  else if c = '(' then some .LEFTPAREN
  else if c = '[' then some .LEFTBRACKET
  else if c = ')' then some .RIGHTPAREN
  else if c = ']' then some .RIGHTBRACKET
  else if c = '.' then some .DOT
  else if c = ',' then some .COMMA
  else if c = ';' then some .SEMICOLON
  else if c = '*' then some .ASTERISK
  else if c = '&' then some .AMPERSAND
  else if c = '|' then some .PIPE
  else if c = '/' then some .FORWARDSLASH
  else none

/-- Case folding of a word, from the `s.chars().flat_map(to_lowercase)` in
`Token::from_str`; on the ASCII input this lexer deals in, Rust
`char::to_lowercase` agrees with `Char.toLower` character by character. -/
def toLowerStr (s : String) : String :=
  ⟨s.data.map Char.toLower⟩

/-- Keyword / type-name / identifier classification, from `Token::from_str`. -/
def Token.from_str (s : String) : Token :=
  let word := toLowerStr s
  if word = "select" then .SELECT
  else if word = "from" then .FROM
  else if word = "where" then .WHERE
  else if word = "order" then .ORDER
  else if word = "insert" then .INSERT
  else if word = "into" then .INTO
  else if word = "create" then .CREATE
  else if word = "table" then .TABLE
  else if word = "drop" then .DROP
  else if word = "if" then .IF
  else if word = "exists" then .EXISTS
  else if word = "not" then .NOT
  else if word = "null" then .NULL
  else if word = "default" then .DEFAULT
  else if word = "serial" then .SERIAL
  else if word = "and" then .AND
  else if word = "or" then .OR
  else if word = "int" ∨ word = "integer" then .INTEGER
  else if word = "text" then .TEXT
  else if word = "float" then .FLOAT
  else if word = "blob" then .BLOB
  else .Identifier word

/-- Rendering of a token the way Rust's derived `Debug` instance prints it,
used to build the payload of `ParserError::Expecting`. -/
def tokenDebug : Token → String
  | .SELECT => "SELECT"
  | .FROM => "FROM"
  | .WHERE => "WHERE"
  | .ORDER => "ORDER"
  | .INSERT => "INSERT"
  | .INTO => "INTO"
  | .CREATE => "CREATE"
  | .TABLE => "TABLE"
  | .DROP => "DROP"
  | .IF => "IF"
  | .EXISTS => "EXISTS"
  | .NOT => "NOT"
  | .NULL => "NULL"
  | .DEFAULT => "DEFAULT"
  | .SERIAL => "SERIAL"
  | .AND => "AND"
  | .OR => "OR"
  | .INTEGER => "INTEGER"
  | .TEXT => "TEXT"
  | .FLOAT => "FLOAT"
  | .BLOB => "BLOB"
  | .EQUAL => "EQUAL"
  | .NOTEQUAL => "NOTEQUAL"
  | .LESSTHAN => "LESSTHAN"
  | .LESSTHANOREQUAL => "LESSTHANOREQUAL"
  | .GREATERTHAN => "GREATERTHAN"
  | .GREATERTHANOREQUAL => "GREATERTHANOREQUAL"
  | .PLUS => "PLUS"
  | .MINUS => "MINUS"
  | .FORWARDSLASH => "FORWARDSLASH"
  | .LEFTPAREN => "LEFTPAREN"
  | .RIGHTPAREN => "RIGHTPAREN"
  | .LEFTBRACKET => "LEFTBRACKET"
  | .RIGHTBRACKET => "RIGHTBRACKET"
  | .DOT => "DOT"
  | .COMMA => "COMMA"
  | .SEMICOLON => "SEMICOLON"
  | .ASTERISK => "ASTERISK"
  | .AMPERSAND => "AMPERSAND"
  | .PIPE => "PIPE"
  | .DOUBLEPIPE => "DOUBLEPIPE"
  | .StringLiteral s => "StringLiteral(\"" ++ s ++ "\")"
  | .NumberLiteral s => "NumberLiteral(\"" ++ s ++ "\")"
  | .Identifier s => "Identifier(\"" ++ s ++ "\")"

/-- Parse errors, from `parser.rs` (`enum ParserError`). -/
inductive ParserError where
  | Expecting (s : String)
  | OutOfTokens
deriving DecidableEq

/-- The parser cursor, from `parser.rs`: a front-consumable token queue. -/
structure Parser where
  tokens : List Token
deriving DecidableEq

/-- Rust `Parser::from_tokens`. -/
def Parser.from_tokens (v : List Token) : Parser := ⟨v⟩

/-- Rust `Parser::peek` (`self.tokens.get(0)`). -/
def Parser.peek (p : Parser) : Option Token := p.tokens.head?

/-- Rust `Parser::peek_is`. -/
def Parser.peek_is (p : Parser) (expecting : Token) : Bool :=
  match p.peek with
  | some token => token = expecting
  | none => false

/-- Rust `Parser::pop` (`pop_front().ok_or(OutOfTokens)`); mutation of the
cursor is modelled by returning the updated cursor with the token. -/
def Parser.pop (p : Parser) : Except ParserError (Token × Parser) :=
  match p.tokens with
  | [] => .error .OutOfTokens
  | t :: rest => .ok (t, ⟨rest⟩)

/-- Rust `Parser::pop_if`: the `pop_front().expect` inside is guarded by
`peek_is`, which guarantees a nonempty queue, so dropping the front with
`tail` is exact. -/
def Parser.pop_if (p : Parser) (expecting : Token) : Bool × Parser :=
  if p.peek_is expecting then (true, ⟨p.tokens.tail⟩) else (false, p)

/-- Rust `Parser::expect`. -/
def Parser.expect (p : Parser) (expecting : Token) : Except ParserError (Token × Parser) :=
  match p.pop with
  | .error e => .error e
  | .ok (tok, p') =>
    if tok = expecting then .ok (tok, p')
    else .error (.Expecting (tokenDebug tok ++ ", found " ++ tokenDebug expecting))

/-- Rust `Parser::expect_string`. -/
def Parser.expect_string (p : Parser) : Except ParserError (Token × Parser) :=
  match p.pop with
  | .error e => .error e
  | .ok (tok, p') =>
    match tok with
    | .StringLiteral s => .ok (.StringLiteral s, p')
    | _ => .error (.Expecting ("string, found " ++ tokenDebug tok))

/-- Rust `Parser::expect_number`. -/
def Parser.expect_number (p : Parser) : Except ParserError (Token × Parser) :=
  match p.pop with
  | .error e => .error e
  | .ok (tok, p') =>
    match tok with
    | .NumberLiteral s => .ok (.NumberLiteral s, p')
    | _ => .error (.Expecting ("number, found " ++ tokenDebug tok))

/-- Rust `Parser::expect_identifier`. -/
def Parser.expect_identifier (p : Parser) : Except ParserError (Token × Parser) :=
  match p.pop with
  | .error e => .error e
  | .ok (tok, p') =>
    match tok with
    | .Identifier s => .ok (.Identifier s, p')
    | _ => .error (.Expecting ("identifier, found " ++ tokenDebug tok))

/-- The backtick string-literal delimiter (written via its code point so the
character appears nowhere in the development outside string literals). -/
def backtick : Char := Char.ofNat 96

/-- Lexical error, from `Lexer::error` in `lexer.rs`: the Rust code formats
exactly these four values into its error string ("Illegal character `c`
encountered on line l, column k during lexical analysis. Expected e"). -/
structure LexError where
  c : Char
  line : Nat
  column : Nat
  expected : String
deriving DecidableEq

/-- Lexer FSM states, from `enum State` in `lexer.rs`. -/
inductive State where
  | None
  | Text
  | Number
  | Disambiguate
  | Comment
  | Operator
  | Escape (b : Bool)
deriving DecidableEq

/-- The lexer, from `struct Lexer` in `lexer.rs`. -/
structure Lexer where
  tokens : List Token
  last_char : Char
  buffer : String
  state : State
  line : Nat
  column : Nat
deriving DecidableEq

/-- The character set scanned with `s.find(c)` in `Lexer::next_state`
(the Rust string literal contains the pipe character twice, as here). -/
def opChars : List Char :=
  ['<', '>', '|', '-', '+', '(', ')', '[', ']', '.', ',', ';', '*', '&', '|', '/']
  ++ ['=']

/-- Rust `Lexer::next_state`: classify a character seen from `State::None`.
The error carries the current line and column of the lexer. -/
def Lexer.next_state (l : Lexer) (c : Char) : Except LexError State :=
  if ('a' ≤ c ∧ c ≤ 'z') ∨ ('A' ≤ c ∧ c ≤ 'Z') ∨ c = '_' then .ok .Text
  else if '0' ≤ c ∧ c ≤ '9' then .ok .Number
  else if c = backtick then .ok (.Escape false)
  else if c = ' ' ∨ c = '\t' ∨ c = '\n' then .ok .None
  else if c = ';' then .ok .None
  else
    match opChars.findIdx? (fun x => x = c) with
    | some index => if index < 4 then .ok .Disambiguate else .ok .None
    | none => .error ⟨c, l.line, l.column, "<>|-+()[].,*&|/="⟩

/-- Result of feeding one character: the next state together with the
updated lexer, a lexical error, or a panic (the `expect` on
`Token::from_char` in the `State::Operator` branch of the `State::None`
arm); `panicked` records the character that was being fed. -/
inductive FeedOut where
  | ok (s : State) (l : Lexer)
  | err (e : LexError)
  | panicked (c : Char)
deriving DecidableEq

/-- The line/column update at the top of `Lexer::feed`. -/
def Lexer.bump (l : Lexer) (c : Char) : Lexer :=
  if c = '\n' then { l with line := l.line + 1, column := 0 }
  else { l with column := l.column + 1 }

/-- Push an optional boundary token, from the repeated
`if let Some(tok) = Token::from_char(c) { self.tokens.push(tok) }`. -/
def pushOpt (toks : List Token) : Option Token → List Token
  | some tok => toks ++ [tok]
  | none => toks

/-- The save of `state` and `last_char` at the bottom of `Lexer::feed`,
shared by every successful arm. -/
def finishFeed (c : Char) (s : State) (l : Lexer) : FeedOut :=
  .ok s { l with state := s, last_char := c }

/-- The state-dispatch `match` of `Lexer::feed`, operating on the lexer
after its line/column bump; the arms mirror the Rust arms. -/
def Lexer.feedAt (l : Lexer) (c : Char) : FeedOut :=
  match l.state with
  | .Comment =>
    if c = '\n' then finishFeed c .None l else finishFeed c .Comment l
  | .None =>
    match l.next_state c with
    | .error e => .err e
    | .ok next =>
      match next with
      | .None => finishFeed c .None { l with tokens := pushOpt l.tokens (Token.from_char c) }
      | .Comment => finishFeed c .Comment l
      | .Text => finishFeed c .Text { l with buffer := l.buffer.push c }
      | .Number => finishFeed c .Number { l with buffer := l.buffer.push c }
      | .Operator =>
        match Token.from_char c with
        | some tok => finishFeed c .Operator { l with tokens := l.tokens ++ [tok] }
        | none => .panicked c
      | other => finishFeed c other l
  | .Text =>
    match l.next_state c with
    | .error e => .err e
    | .ok .Text => finishFeed c .Text { l with buffer := l.buffer.push c }
    | .ok .Number => finishFeed c .Text { l with buffer := l.buffer.push c }
    | .ok .None =>
      let toks := pushOpt (l.tokens ++ [Token.from_str l.buffer]) (Token.from_char c)
      finishFeed c .None { l with buffer := "", tokens := toks }
    | .ok _ => .err ⟨c, l.line, l.column, "valid identifier [a-Z|0-9|_]"⟩
  | .Number =>
    match l.next_state c with
    | .error e => .err e
    | .ok .Number => finishFeed c .Number { l with buffer := l.buffer.push c }
    | .ok .Operator =>
      if c = '.' then finishFeed c .Number { l with buffer := l.buffer.push c }
      else .err ⟨c, l.line, l.column, "valid number [0-9|.]"⟩
    | .ok .None =>
      let toks := pushOpt (l.tokens ++ [Token.NumberLiteral l.buffer]) (Token.from_char c)
      finishFeed c .None { l with buffer := "", tokens := toks }
    | .ok _ => .err ⟨c, l.line, l.column, "valid number [0-9|.]"⟩
  | .Escape escaped =>
    if escaped = false ∧ c = backtick then finishFeed c (.Escape false) l
    else if escaped = true ∧ c = backtick then
      if l.last_char ≠ '\\' then
        let toks := l.tokens ++ [Token.StringLiteral l.buffer]
        finishFeed c .None { l with buffer := "", tokens := toks }
      else finishFeed c .None l
    else finishFeed c (.Escape true) { l with buffer := l.buffer.push c }
  | .Disambiguate =>
    if l.last_char = '-' ∧ c = '-' then finishFeed c .Comment l
    else if l.last_char = '<' ∧ c = '>' then
      finishFeed c .None { l with tokens := l.tokens ++ [Token.NOTEQUAL] }
    else if l.last_char = '<' ∧ c = '=' then
      finishFeed c .None { l with tokens := l.tokens ++ [Token.LESSTHANOREQUAL] }
    else if l.last_char = '>' ∧ c = '=' then
      finishFeed c .None { l with tokens := l.tokens ++ [Token.GREATERTHANOREQUAL] }
    else if l.last_char = '>' ∧ c = ' ' then
      finishFeed c .None { l with tokens := l.tokens ++ [Token.GREATERTHAN] }
    else if l.last_char = '<' ∧ c = ' ' then
      finishFeed c .None { l with tokens := l.tokens ++ [Token.LESSTHAN] }
    else if l.last_char = '|' ∧ c = '|' then
      finishFeed c .None { l with tokens := l.tokens ++ [Token.DOUBLEPIPE] }
    else .err ⟨c, l.line, l.column, "matching operator"⟩
  | .Operator => finishFeed c .None l

/-- Rust `Lexer::feed`: bump line/column, then dispatch on the state. -/
def Lexer.feed (l0 : Lexer) (c : Char) : FeedOut :=
  (l0.bump c).feedAt c

/-- Result of feeding a whole character list. -/
inductive StepOut where
  | ok (l : Lexer)
  | err (e : LexError)
  | panicked (c : Char)
deriving DecidableEq

/-- The `for c in s.chars() { lex.feed(c)? }` loop of `Lexer::lex`. -/
def Lexer.feedList (l : Lexer) : List Char → StepOut
  | [] => .ok l
  | c :: cs =>
    match l.feed c with
    | .ok _ l' => l'.feedList cs
    | .err e => .err e
    | .panicked c' => .panicked c'

/-- The fresh lexer built at the top of `Lexer::lex`. -/
def initLexer : Lexer :=
  { tokens := [], last_char := ' ', buffer := "", state := .None, line := 0, column := 0 }

/-- Result of `Lexer::lex`: a parser cursor, a lexical error, or a panic. -/
inductive LexOut where
  | ok (p : Parser)
  | err (e : LexError)
  | panicked (c : Char)
deriving DecidableEq

/-- Rust `Lexer::lex`: feed every character, then hand the accumulated
tokens to a fresh parser cursor (no end-of-input state check). -/
def Lexer.lex (s : String) : LexOut :=
  match initLexer.feedList s.data with
  | .ok l => .ok (Parser.from_tokens l.tokens)
  | .err e => .err e
  | .panicked c => .panicked c

/-- Line/column bookkeeping of a character list, as the repeated `bump`
performs it: first component is the line (number of newlines seen so far,
the lexer starts at line 0), second the column (characters since the last
newline; the bump increments it before each non-newline character, so it
is 1-based within a line). -/
def posAfter (p : Nat × Nat) : List Char → Nat × Nat
  | [] => p
  | c :: cs => posAfter (if c = '\n' then (p.1 + 1, 0) else (p.1, p.2 + 1)) cs

/-- A character rejected by `Lexer::next_state`: not an identifier start,
not a digit, not a backtick, not whitespace, not a semicolon, and not in
the operator-character string. -/
def isIllegalChar (c : Char) : Bool :=
  !(decide (('a' ≤ c ∧ c ≤ 'z') ∨ ('A' ≤ c ∧ c ≤ 'Z') ∨ c = '_') ||
    decide ('0' ≤ c ∧ c ≤ '9') ||
    decide (c = backtick) ||
    decide (c = ' ' ∨ c = '\t' ∨ c = '\n') ||
    decide (c = ';') ||
    (opChars.findIdx? (fun x => x = c)).isSome)

/-- The spec's buffer invariant, stated over the code's `Lexer` record:
outside of the buffering states (`Text`, `Number`, `Escape`) the text
buffer is empty. -/
def BufInv (l : Lexer) : Prop :=
  (l.state = .None ∨ l.state = .Disambiguate ∨ l.state = .Comment ∨ l.state = .Operator) →
    l.buffer = ""

/-- The seven last-char/current-char pairings the `State::Disambiguate`
arm recognises. -/
def knownPairs : List (Char × Char) :=
  [('-', '-'), ('<', '>'), ('<', '='), ('>', '='), ('>', ' '), ('<', ' '), ('|', '|')]

/-- AST column projection, from `ast/columns.rs` (`enum Column`). -/
inductive Column where
  | All
  | Expr (t : Token)
deriving DecidableEq

/-- Rust `Column::parse` (`impl` of the grammar-rule contract in
`ast/columns.rs`): `*` yields `All`, otherwise any poppable token is
wrapped in `Expr`. -/
def Column.parse (p : Parser) : Except ParserError (Column × Parser) :=
  match p.pop_if Token.ASTERISK with
  | (true, p') => .ok (.All, p')
  | (false, p') =>
    match p'.pop with
    | .ok (column, p'') => .ok (.Expr column, p'')
    | .error e => .error e

/-- Result of the comma-delimited combinator: `CommaDelimited::<R>::parse`
in `ast/mod.rs` calls `.unwrap()` on the inner rule's result, so on top of
the declared `ParserResult` it can panic; `panicked` models that. -/
inductive CResult (α : Type) where
  | ok (a : α)
  | err (e : ParserError)
  | panicked
deriving DecidableEq

theorem pop_if_nil (t : Token) : Parser.pop_if ⟨[]⟩ t = (false, ⟨[]⟩) := rfl

theorem pop_if_cons (a : Token) (rest : List Token) (t : Token) :
    Parser.pop_if ⟨a :: rest⟩ t =
      if a = t then (true, ⟨rest⟩) else (false, ⟨a :: rest⟩) := by
  by_cases ha : a = t
  · subst ha
    simp [Parser.pop_if, Parser.peek_is, Parser.peek]
  · simp [Parser.pop_if, Parser.peek_is, Parser.peek, ha]

theorem pop_if_true_lt (p : Parser) (t : Token) (p' : Parser)
    (h : p.pop_if t = (true, p')) : p'.tokens.length < p.tokens.length := by
  obtain ⟨toks⟩ := p
  cases toks with
  | nil => rw [pop_if_nil] at h; cases h
  | cons a rest =>
    rw [pop_if_cons] at h
    by_cases ha : a = t
    · rw [if_pos ha] at h
      cases h
      simp
    · rw [if_neg ha] at h
      cases h

theorem Column.parse_nil : Column.parse ⟨[]⟩ = .error .OutOfTokens := rfl

theorem Column.parse_cons (t : Token) (rest : List Token) :
    Column.parse ⟨t :: rest⟩ =
      if t = Token.ASTERISK then .ok (.All, ⟨rest⟩) else .ok (.Expr t, ⟨rest⟩) := by
  by_cases ht : t = Token.ASTERISK
  · subst ht
    rfl
  · simp [Column.parse, pop_if_cons, Parser.pop, ht]

theorem Column.parse_le (p : Parser) (c : Column) (p' : Parser)
    (h : Column.parse p = .ok (c, p')) : p'.tokens.length ≤ p.tokens.length := by
  obtain ⟨toks⟩ := p
  cases toks with
  | nil => rw [Column.parse_nil] at h; cases h
  | cons t rest =>
    rw [Column.parse_cons] at h
    by_cases ht : t = Token.ASTERISK
    · rw [if_pos ht] at h
      cases h
      simp
    · rw [if_neg ht] at h
      cases h
      simp

/-- The `while parser.pop_if(COMMA)` loop of `CommaDelimited::<R>::parse`,
specialised to the `Column` rule; `v` is the accumulated output vector.
A failing inner parse is unwrapped in the Rust source, hence `panicked`. -/
def commaDelimitedAux (v : List Column) (p : Parser) : CResult (List Column × Parser) :=
  match hpi : p.pop_if Token.COMMA with
  | (false, p') => .ok (v, p')
  | (true, p') =>
    match hcp : Column.parse p' with
    | .error _ => .panicked
    | .ok (c, p'') => commaDelimitedAux (v ++ [c]) p''
termination_by p.tokens.length
decreasing_by
  have h1 := pop_if_true_lt p Token.COMMA p' hpi
  have h2 := Column.parse_le p' c p'' hcp
  omega

/-- Rust `CommaDelimited::<Column>::parse` from `ast/mod.rs`:
`v.push(R::parse(parser).unwrap())`, then the comma loop. -/
def CommaDelimited.parse (p : Parser) : CResult (List Column × Parser) :=
  match Column.parse p with
  | .error _ => .panicked
  | .ok (c, p') => commaDelimitedAux [c] p'

theorem next_state_cases (l : Lexer) (c : Char) :
    l.next_state c = .ok .Text ∨ l.next_state c = .ok .Number ∨
    l.next_state c = .ok (.Escape false) ∨ l.next_state c = .ok .None ∨
    l.next_state c = .ok .Disambiguate ∨
    l.next_state c = .error ⟨c, l.line, l.column, "<>|-+()[].,*&|/="⟩ := by
  unfold Lexer.next_state
  split_ifs <;> try simp
  split
  · split_ifs
    · simp
    · simp
  · simp

theorem feedAt_ok_fields (toks : List Token) (lc : Char) (buf : String)
    (st : State) (line col : Nat) (c : Char) (s : State) (l' : Lexer)
    (h : Lexer.feedAt ⟨toks, lc, buf, st, line, col⟩ c = .ok s l') :
    l'.state = s ∧ l'.last_char = c ∧ l'.line = line ∧ l'.column = col ∧ s ≠ .Operator := by
  cases st
  case Comment =>
    by_cases hnl : c = '\n' <;>
      simp only [Lexer.feedAt, hnl, finishFeed, ite_true, ite_false, FeedOut.ok.injEq,
        if_true, if_false, not_false_eq_true, if_neg] at h <;>
    obtain ⟨rfl, rfl⟩ := h <;> simp [hnl]
  case None =>
    rcases next_state_cases ⟨toks, lc, buf, .None, line, col⟩ c with hns | hns | hns | hns | hns | hns <;>
      simp only [Lexer.feedAt, hns, finishFeed, FeedOut.ok.injEq, reduceCtorEq] at h <;>
    obtain ⟨rfl, rfl⟩ := h <;> simp
  case Text =>
    rcases next_state_cases ⟨toks, lc, buf, .Text, line, col⟩ c with hns | hns | hns | hns | hns | hns <;>
      simp only [Lexer.feedAt, hns, finishFeed, FeedOut.ok.injEq, reduceCtorEq] at h <;>
    obtain ⟨rfl, rfl⟩ := h <;> simp
  case Number =>
    rcases next_state_cases ⟨toks, lc, buf, .Number, line, col⟩ c with hns | hns | hns | hns | hns | hns <;>
      simp only [Lexer.feedAt, hns, finishFeed, FeedOut.ok.injEq, reduceCtorEq] at h <;>
    obtain ⟨rfl, rfl⟩ := h <;> simp
  case Escape b =>
    cases b <;> by_cases hbt : c = backtick <;> by_cases hlc : lc = '\\' <;>
      simp only [Lexer.feedAt, hbt, hlc, finishFeed, FeedOut.ok.injEq, ite_true, ite_false,
        if_true, if_false, not_false_eq_true, if_neg, Bool.true_eq_false, Bool.false_eq_true,
        false_and, true_and, and_true, and_false, not_true, not_false_iff, ne_eq,
        reduceCtorEq] at h <;>
    obtain ⟨rfl, rfl⟩ := h <;> simp [hbt, hlc]
  case Disambiguate =>
    simp only [Lexer.feedAt] at h
    split_ifs at h <;>
      simp only [finishFeed, FeedOut.ok.injEq, reduceCtorEq] at h <;>
    obtain ⟨rfl, rfl⟩ := h <;> simp
  case Operator =>
    simp only [Lexer.feedAt, finishFeed, FeedOut.ok.injEq] at h
    obtain ⟨rfl, rfl⟩ := h
    simp

theorem feedAt_no_panic (toks : List Token) (lc : Char) (buf : String)
    (st : State) (line col : Nat) (c c' : Char) :
    Lexer.feedAt ⟨toks, lc, buf, st, line, col⟩ c ≠ .panicked c' := by
  cases st
  case Comment =>
    by_cases hnl : c = '\n' <;> simp [Lexer.feedAt, hnl, finishFeed]
  case None =>
    rcases next_state_cases ⟨toks, lc, buf, .None, line, col⟩ c with hns | hns | hns | hns | hns | hns <;>
      simp [Lexer.feedAt, hns, finishFeed]
  case Text =>
    rcases next_state_cases ⟨toks, lc, buf, .Text, line, col⟩ c with hns | hns | hns | hns | hns | hns <;>
      simp [Lexer.feedAt, hns, finishFeed]
  case Number =>
    rcases next_state_cases ⟨toks, lc, buf, .Number, line, col⟩ c with hns | hns | hns | hns | hns | hns <;>
      simp [Lexer.feedAt, hns, finishFeed]
  case Escape b =>
    cases b <;> by_cases hbt : c = backtick <;> by_cases hlc : lc = '\\' <;>
      simp [Lexer.feedAt, hbt, hlc, finishFeed]
  case Disambiguate =>
    simp only [Lexer.feedAt]
    split_ifs <;> simp [finishFeed]
  case Operator =>
    simp [Lexer.feedAt, finishFeed]

theorem feedAt_buf (toks : List Token) (lc : Char) (buf : String)
    (st : State) (line col : Nat) (c : Char) (s : State) (l' : Lexer)
    (h : Lexer.feedAt ⟨toks, lc, buf, st, line, col⟩ c = .ok s l')
    (hc : c ≠ '\\') (hlc : lc ≠ '\\')
    (hbuf : (st = .None ∨ st = .Disambiguate ∨ st = .Comment ∨ st = .Operator) → buf = "") :
    BufInv l' := by
  cases st
  case Comment =>
    by_cases hnl : c = '\n' <;>
      simp only [Lexer.feedAt, hnl, finishFeed, ite_true, ite_false, FeedOut.ok.injEq,
        if_true, if_false, not_false_eq_true, if_neg] at h <;>
    obtain ⟨rfl, rfl⟩ := h <;> intro hset <;>
    first
      | rfl
      | exact hbuf (Or.inl rfl)
      | exact hbuf (Or.inr (Or.inl rfl))
      | exact hbuf (Or.inr (Or.inr (Or.inl rfl)))
      | exact hbuf (Or.inr (Or.inr (Or.inr rfl)))
      | simp at hset
  case None =>
    rcases next_state_cases ⟨toks, lc, buf, .None, line, col⟩ c with hns | hns | hns | hns | hns | hns <;>
      simp only [Lexer.feedAt, hns, finishFeed, FeedOut.ok.injEq, reduceCtorEq] at h <;>
    obtain ⟨rfl, rfl⟩ := h <;> intro hset <;>
    first
      | rfl
      | exact hbuf (Or.inl rfl)
      | exact hbuf (Or.inr (Or.inl rfl))
      | exact hbuf (Or.inr (Or.inr (Or.inl rfl)))
      | exact hbuf (Or.inr (Or.inr (Or.inr rfl)))
      | simp at hset
  case Text =>
    rcases next_state_cases ⟨toks, lc, buf, .Text, line, col⟩ c with hns | hns | hns | hns | hns | hns <;>
      simp only [Lexer.feedAt, hns, finishFeed, FeedOut.ok.injEq, reduceCtorEq] at h <;>
    obtain ⟨rfl, rfl⟩ := h <;> intro hset <;>
    first
      | rfl
      | exact hbuf (Or.inl rfl)
      | exact hbuf (Or.inr (Or.inl rfl))
      | exact hbuf (Or.inr (Or.inr (Or.inl rfl)))
      | exact hbuf (Or.inr (Or.inr (Or.inr rfl)))
      | simp at hset
  case Number =>
    rcases next_state_cases ⟨toks, lc, buf, .Number, line, col⟩ c with hns | hns | hns | hns | hns | hns <;>
      simp only [Lexer.feedAt, hns, finishFeed, FeedOut.ok.injEq, reduceCtorEq] at h <;>
    obtain ⟨rfl, rfl⟩ := h <;> intro hset <;>
    first
      | rfl
      | exact hbuf (Or.inl rfl)
      | exact hbuf (Or.inr (Or.inl rfl))
      | exact hbuf (Or.inr (Or.inr (Or.inl rfl)))
      | exact hbuf (Or.inr (Or.inr (Or.inr rfl)))
      | simp at hset
  case Escape b =>
    cases b <;> by_cases hbt : c = backtick <;>
      simp only [Lexer.feedAt, hbt, hlc, finishFeed, FeedOut.ok.injEq, ite_true, ite_false,
        if_true, if_false, not_false_eq_true, if_neg, Bool.true_eq_false, Bool.false_eq_true,
        false_and, true_and, and_true, and_false, not_true, not_false_iff, ne_eq,
        reduceCtorEq] at h <;>
    obtain ⟨rfl, rfl⟩ := h <;> intro hset <;>
    first
      | rfl
      | exact hbuf (Or.inl rfl)
      | exact hbuf (Or.inr (Or.inl rfl))
      | exact hbuf (Or.inr (Or.inr (Or.inl rfl)))
      | exact hbuf (Or.inr (Or.inr (Or.inr rfl)))
      | simp at hset
  case Disambiguate =>
    simp only [Lexer.feedAt] at h
    split_ifs at h <;>
      simp only [finishFeed, FeedOut.ok.injEq, reduceCtorEq] at h <;>
    obtain ⟨rfl, rfl⟩ := h <;> intro hset <;>
    first
      | rfl
      | exact hbuf (Or.inl rfl)
      | exact hbuf (Or.inr (Or.inl rfl))
      | exact hbuf (Or.inr (Or.inr (Or.inl rfl)))
      | exact hbuf (Or.inr (Or.inr (Or.inr rfl)))
      | simp at hset
  case Operator =>
    simp only [Lexer.feedAt, finishFeed, FeedOut.ok.injEq] at h
    obtain ⟨rfl, rfl⟩ := h
    intro hset
    exact hbuf (Or.inr (Or.inr (Or.inr rfl)))

theorem bump_decomp (l : Lexer) (c : Char) :
    l.bump c = ⟨l.tokens, l.last_char, l.buffer, l.state, (l.bump c).line, (l.bump c).column⟩ := by
  unfold Lexer.bump
  split_ifs <;> rfl

theorem bump_pair (l : Lexer) (c : Char) :
    ((l.bump c).line, (l.bump c).column) =
      if c = '\n' then (l.line + 1, 0) else (l.line, l.column + 1) := by
  unfold Lexer.bump
  split_ifs <;> rfl

theorem bump_not_newline (l : Lexer) (c : Char) (h : c ≠ '\n') :
    (l.bump c).line = l.line ∧ (l.bump c).column = l.column + 1 := by
  unfold Lexer.bump
  rw [if_neg h]
  exact ⟨rfl, rfl⟩

theorem feed_ok_fields (l : Lexer) (c : Char) (s : State) (l' : Lexer)
    (h : l.feed c = .ok s l') :
    l'.state = s ∧ l'.last_char = c ∧ l'.line = (l.bump c).line ∧
    l'.column = (l.bump c).column ∧ s ≠ .Operator := by
  unfold Lexer.feed at h
  rw [bump_decomp] at h
  exact feedAt_ok_fields _ _ _ _ _ _ _ _ _ h

theorem feed_no_panic (l : Lexer) (c c' : Char) : l.feed c ≠ .panicked c' := by
  unfold Lexer.feed
  rw [bump_decomp]
  exact feedAt_no_panic _ _ _ _ _ _ _ _

theorem feed_buf (l : Lexer) (c : Char) (s : State) (l' : Lexer)
    (h : l.feed c = .ok s l') (hc : c ≠ '\\') (hlc : l.last_char ≠ '\\')
    (hbuf : BufInv l) : BufInv l' := by
  unfold Lexer.feed at h
  rw [bump_decomp] at h
  exact feedAt_buf _ _ _ _ _ _ _ _ _ h hc hlc (fun hs => hbuf hs)

theorem feedList_no_panic (cs : List Char) :
    ∀ (l : Lexer) (c' : Char), l.feedList cs ≠ .panicked c' := by
  induction cs with
  | nil =>
    intro l c'
    simp [Lexer.feedList]
  | cons c cs ih =>
    intro l c'
    simp only [Lexer.feedList]
    cases hf : l.feed c with
    | ok s l2 => exact ih l2 c'
    | err e => simp
    | panicked c2 => exact absurd hf (feed_no_panic l c c2)

theorem feedList_ok_no_operator (cs : List Char) :
    ∀ (l l' : Lexer), l.feedList cs = .ok l' → l.state ≠ .Operator → l'.state ≠ .Operator := by
  induction cs with
  | nil =>
    intro l l' h hop
    simp only [Lexer.feedList, StepOut.ok.injEq] at h
    rw [← h]
    exact hop
  | cons c cs ih =>
    intro l l' h hop
    simp only [Lexer.feedList] at h
    cases hf : l.feed c with
    | ok s l2 =>
      simp only [hf] at h
      obtain ⟨hst, -, -, -, hop2⟩ := feed_ok_fields l c s l2 hf
      exact ih l2 l' h (by rw [hst]; exact hop2)
    | err e => simp only [hf, reduceCtorEq] at h
    | panicked c2 => exact absurd hf (feed_no_panic l c c2)

theorem feedList_pos (cs : List Char) :
    ∀ (l l' : Lexer), l.feedList cs = .ok l' →
      (l'.line, l'.column) = posAfter (l.line, l.column) cs := by
  induction cs with
  | nil =>
    intro l l' h
    simp only [Lexer.feedList, StepOut.ok.injEq] at h
    rw [← h]
    rfl
  | cons c cs ih =>
    intro l l' h
    simp only [Lexer.feedList] at h
    cases hf : l.feed c with
    | ok s l2 =>
      simp only [hf] at h
      obtain ⟨-, -, hline, hcol, -⟩ := feed_ok_fields l c s l2 hf
      have h2 := ih l2 l' h
      rw [h2]
      simp only [posAfter]
      congr 1
      rw [hline, hcol]
      exact bump_pair l c
    | err e => simp only [hf, reduceCtorEq] at h
    | panicked c2 => exact absurd hf (feed_no_panic l c c2)

theorem feedList_buf (cs : List Char) :
    ∀ (l l' : Lexer), (∀ c ∈ cs, c ≠ '\\') → l.last_char ≠ '\\' → BufInv l →
      l.feedList cs = .ok l' → BufInv l' ∧ l'.last_char ≠ '\\' := by
  induction cs with
  | nil =>
    intro l l' _ hlc hbuf h
    simp only [Lexer.feedList, StepOut.ok.injEq] at h
    rw [← h]
    exact ⟨hbuf, hlc⟩
  | cons c cs ih =>
    intro l l' hcs hlc hbuf h
    have hc : c ≠ '\\' := hcs c (List.mem_cons_self c cs)
    have hcs' : ∀ x ∈ cs, x ≠ '\\' := fun x hx => hcs x (List.mem_cons_of_mem c hx)
    simp only [Lexer.feedList] at h
    cases hf : l.feed c with
    | ok s l2 =>
      simp only [hf] at h
      obtain ⟨-, hlast, -, -, -⟩ := feed_ok_fields l c s l2 hf
      have hbuf2 := feed_buf l c s l2 hf hc hlc hbuf
      exact ih l2 l' hcs' (by rw [hlast]; exact hc) hbuf2 h
    | err e => simp only [hf, reduceCtorEq] at h
    | panicked c2 => exact absurd hf (feed_no_panic l c c2)

theorem feedList_append_ok (xs : List Char) :
    ∀ (l l₁ : Lexer) (ys : List Char), l.feedList xs = .ok l₁ →
      l.feedList (xs ++ ys) = l₁.feedList ys := by
  induction xs with
  | nil =>
    intro l l₁ ys h
    simp only [Lexer.feedList, StepOut.ok.injEq] at h
    rw [← h]
    simp
  | cons c xs ih =>
    intro l l₁ ys h
    simp only [Lexer.feedList, List.cons_append] at h ⊢
    cases hf : l.feed c with
    | ok s l2 =>
      simp only [hf] at h ⊢
      exact ih l2 l₁ ys h
    | err e => simp only [hf, reduceCtorEq] at h
    | panicked c2 => exact absurd hf (feed_no_panic l c c2)

theorem illegal_not_newline (c : Char) (hill : isIllegalChar c = true) : c ≠ '\n' := by
  intro hc
  subst hc
  simp [isIllegalChar] at hill

theorem illegal_next_state (l : Lexer) (c : Char) (hill : isIllegalChar c = true) :
    l.next_state c = .error ⟨c, l.line, l.column, "<>|-+()[].,*&|/="⟩ := by
  unfold isIllegalChar at hill
  simp only [Bool.not_eq_eq_eq_not, Bool.not_true, Bool.or_eq_false_iff,
    decide_eq_false_iff_not] at hill
  obtain ⟨⟨⟨⟨⟨h1, h2⟩, h3⟩, h4⟩, h5⟩, h6⟩ := hill
  unfold Lexer.next_state
  rw [if_neg h1, if_neg h2, if_neg h3, if_neg h4, if_neg h5]
  cases hfi : opChars.findIdx? (fun x => x = c) with
  | some i =>
    rw [hfi] at h6
    simp at h6
  | none => rfl

theorem feed_illegal (l : Lexer) (c : Char) (hst : l.state = .None)
    (hill : isIllegalChar c = true) :
    l.feed c = .err ⟨c, (l.bump c).line, (l.bump c).column, "<>|-+()[].,*&|/="⟩ := by
  unfold Lexer.feed
  rw [bump_decomp, hst]
  have hns := illegal_next_state ⟨l.tokens, l.last_char, l.buffer, State.None,
    (l.bump c).line, (l.bump c).column⟩ c hill
  simp only [Lexer.feedAt, hns]

/-- C1: lexing the string "select * from my_table where row_id > 0;" succeeds
and the resulting parser cursor holds exactly the token sequence SELECT,
ASTERISK, FROM, Identifier my_table, WHERE, Identifier row_id, GREATERTHAN,
NumberLiteral 0, SEMICOLON, in this order. -/
theorem lex_select_star_example :
    Lexer.lex ("select * from my_table where row_id > 0;") =
      .ok ⟨[Token.SELECT, Token.ASTERISK, Token.FROM, Token.Identifier "my_table",
        Token.WHERE, Token.Identifier "row_id", Token.GREATERTHAN,
        Token.NumberLiteral "0", Token.SEMICOLON]⟩ := rfl

/-- C2: evaluation of the code at the failing input "1.5;".  Because
`next_state` classifies a dot as `State::None` (its index in the operator
string is 9, not below 4, and `next_state` never returns `State::Operator`),
the `State::Operator` decimal-point branch of the `State::Number` arm is
dead code: a dot inside a number flushes the buffered digits as a
NumberLiteral and emits a DOT token, splitting "1.5" into three tokens
instead of buffering the single NumberLiteral "1.5" that the branch (and
the spec) intend. -/
theorem lex_decimal_point_splits :
    Lexer.lex ("1.5;") =
      .ok ⟨[Token.NumberLiteral "1", Token.DOT, Token.NumberLiteral "5",
        Token.SEMICOLON]⟩ := rfl

/-- C3 counterexample: a '<' followed by a digit does not resolve to
LESSTHAN followed by a fresh number; the Disambiguate arm has no fallback
pairing, so lexing "<5" aborts with a "matching operator" error (at line 0,
column 2), refuting the claim that such pairings never fail. -/
theorem disambiguate_digit_errors :
    Lexer.lex ("<5") = .err ⟨'5', 0, 2, "matching operator"⟩ := rfl

/-- C3 amended: in the Disambiguate state only the pairings ('<',' ') and
('>',' ') resolve the first character alone to its single-character token
(consuming the space); every other pairing that does not form one of the
known two-character operators '--', '<>', '<=', '>=', '||' returns a
"matching operator" error instead of resolving the first character and
reprocessing the second. -/
theorem disambiguate_resolution (toks : List Token) (lc : Char) (buf : String)
    (line col : Nat) (c : Char) :
    (lc = '<' ∧ c = ' ' →
      Lexer.feed ⟨toks, lc, buf, .Disambiguate, line, col⟩ c =
        .ok .None ⟨toks ++ [Token.LESSTHAN], ' ', buf, .None, line, col + 1⟩) ∧
    (lc = '>' ∧ c = ' ' →
      Lexer.feed ⟨toks, lc, buf, .Disambiguate, line, col⟩ c =
        .ok .None ⟨toks ++ [Token.GREATERTHAN], ' ', buf, .None, line, col + 1⟩) ∧
    ((lc, c) ∉ knownPairs →
      Lexer.feed ⟨toks, lc, buf, .Disambiguate, line, col⟩ c =
        .err ⟨c, (if c = '\n' then line + 1 else line), (if c = '\n' then 0 else col + 1),
          "matching operator"⟩) := by
  refine ⟨?_, ?_, ?_⟩
  · rintro ⟨rfl, rfl⟩
    rfl
  · rintro ⟨rfl, rfl⟩
    rfl
  · intro hn
    simp only [knownPairs, List.mem_cons, List.not_mem_nil, or_false, Prod.mk.injEq,
      not_or] at hn
    obtain ⟨h1, h2, h3, h4, h5, h6, h7⟩ := hn
    unfold Lexer.feed
    rw [bump_decomp]
    simp only [Lexer.feedAt]
    rw [if_neg h1, if_neg h2, if_neg h3, if_neg h4, if_neg h5, if_neg h6, if_neg h7]
    by_cases hnl : c = '\n' <;> simp [Lexer.bump, hnl]

/-- C3 witness: the amended theorem applied at a concrete Disambiguate-state
lexer holding '<' as its lookback, fed a space. -/
theorem disambiguate_resolution_witness :
    Lexer.feed ⟨[], '<', "", .Disambiguate, 0, 0⟩ ' ' =
      .ok .None ⟨[Token.LESSTHAN], ' ', "", .None, 0, 1⟩ :=
  (disambiguate_resolution [] '<' "" 0 0 ' ').1 ⟨rfl, rfl⟩

/-- C4: evaluation of the code at the failing input.  The token sequence of
"a," is [Identifier a, COMMA]; `CommaDelimited::<Column>::parse` pops the
comma, calls `Column::parse` on the now-empty cursor, which returns
`Err(OutOfTokens)`, and the combinator's `.unwrap()` turns that error into a
panic instead of propagating it. -/
theorem comma_delimited_trailing_comma_panics :
    CommaDelimited.parse ⟨[Token.Identifier "a", Token.COMMA]⟩ = .panicked := by
  show (match Column.parse ⟨[Token.Identifier "a", Token.COMMA]⟩ with
    | .error _ => CResult.panicked
    | .ok (c, p') => commaDelimitedAux [c] p') = CResult.panicked
  rw [Column.parse_cons, if_neg (by decide)]
  show commaDelimitedAux [Column.Expr (Token.Identifier "a")] ⟨[Token.COMMA]⟩ = CResult.panicked
  rw [commaDelimitedAux.eq_def, pop_if_cons, if_pos rfl]
  show (match Column.parse ⟨[]⟩ with
    | .error _ => CResult.panicked
    | .ok (c, p'') =>
        commaDelimitedAux ([Column.Expr (Token.Identifier "a")] ++ [c]) p'') = CResult.panicked
  rw [Column.parse_nil]

/-- C5: evaluation of the code at the failing input "`abc".  The input opens
a backtick literal and ends without a closing backtick; `Lexer::lex` runs
the feed loop to exhaustion without checking the final state, so it returns
a parser with an empty token list while the lexer was still in the Escape
state holding "abc" in its buffer: the literal is silently dropped instead
of producing the error the claim requires. -/
theorem lex_unterminated_literal_succeeds :
    Lexer.lex ("`abc") = .ok ⟨[]⟩ ∧
    Lexer.feedList initLexer ("`abc").data =
      .ok ⟨[], 'c', "abc", .Escape true, 0, 4⟩ :=
  ⟨rfl, rfl⟩

/-- C6 counterexample: feeding the closing backtick to an Escape-state lexer
whose preceding consumed character was a backslash does not append the
backtick and stay in Escape as claimed; the code transitions to the None
state (without emitting a token and without touching the buffer). -/
theorem escape_backslash_close_counterexample :
    Lexer.feed ⟨[], '\\', "a\\", State.Escape true, 0, 3⟩ backtick =
      .ok State.None ⟨[], backtick, "a\\", State.None, 0, 4⟩ ∧
    State.None ≠ State.Escape true :=
  ⟨rfl, by decide⟩

/-- C6 amended: in the Escape(true) state a closing backtick whose preceding
consumed character was a backslash closes the literal without emitting a
token and without clearing the buffer (the backtick itself is not appended);
an unescaped closing backtick flushes the buffer as a StringLiteral and
returns to None. -/
theorem escape_close_behavior (toks : List Token) (lc : Char) (buf : String)
    (line col : Nat) :
    (lc = '\\' →
      Lexer.feed ⟨toks, lc, buf, .Escape true, line, col⟩ backtick =
        .ok .None ⟨toks, backtick, buf, .None, line, col + 1⟩) ∧
    (lc ≠ '\\' →
      Lexer.feed ⟨toks, lc, buf, .Escape true, line, col⟩ backtick =
        .ok .None ⟨toks ++ [Token.StringLiteral buf], backtick, "", .None, line, col + 1⟩) := by
  constructor
  · rintro rfl
    rfl
  · intro hlc
    unfold Lexer.feed
    rw [bump_decomp]
    obtain ⟨hbl, hbc⟩ :=
      bump_not_newline ⟨toks, lc, buf, State.Escape true, line, col⟩ backtick (by decide)
    rw [hbl, hbc]
    simp [Lexer.feedAt, finishFeed, hlc]

/-- C6 witness: the amended theorem applied at a concrete Escape-state lexer
whose lookback is not a backslash. -/
theorem escape_close_behavior_witness :
    Lexer.feed ⟨[], 'x', "ab", .Escape true, 0, 2⟩ backtick =
      .ok .None ⟨[Token.StringLiteral "ab"], backtick, "", .None, 0, 3⟩ :=
  (escape_close_behavior [] 'x' "ab" 0 2).2 (by decide)

/-- C7 counterexample: after feeding the four characters of "`x\\`" (an
escaped closing backtick) from the initial state, feed has returned with the
lexer in the None state while the buffer still holds "x\\": the buffer is
not empty in the None state, refuting the unconditional invariant. -/
theorem buffer_invariant_counterexample :
    Lexer.feedList initLexer ("`x\\`").data =
      .ok ⟨[], backtick, "x\\", State.None, 0, 4⟩ ∧
    ("x\\" : String) ≠ "" :=
  ⟨rfl, by decide⟩

/-- C7 amended: for every character sequence containing no backslash fed
from the initial lexer state, whenever the feed loop returns with the lexer
state equal to None the internal text buffer is empty (the buffer
accumulates only in the Text, Number and Escape states). -/
theorem buffer_empty_at_none_no_backslash (cs : List Char) (l' : Lexer)
    (hcs : ∀ c ∈ cs, c ≠ '\\') (h : Lexer.feedList initLexer cs = .ok l')
    (hs : l'.state = .None) : l'.buffer = "" := by
  have hinv := feedList_buf cs initLexer l' hcs (by decide) (fun _ => rfl) h
  exact hinv.1 (Or.inl hs)

/-- C7 witness: the amended theorem applied to the concrete input "a ". -/
theorem buffer_empty_at_none_witness :
    (⟨[Token.Identifier "a"], ' ', "", State.None, 0, 2⟩ : Lexer).buffer = "" :=
  buffer_empty_at_none_no_backslash ("a ").data
    ⟨[Token.Identifier "a"], ' ', "", State.None, 0, 2⟩ (by decide) rfl rfl

/-- C8 counterexample: lexing "#" (an illegal character at 1-based line 1,
column 1) fails with an error whose line field is 0, not 1: the lexer's
line counter starts at 0 and is only incremented on newlines, so the error
carries a 0-based line number, refuting the claimed 1-based line. -/
theorem illegal_char_line_zero_based :
    Lexer.lex ("#") = .err ⟨'#', 0, 1, "<>|-+()[].,*&|/="⟩ ∧ (0 : Nat) ≠ 1 :=
  ⟨rfl, by decide⟩

/-- C8 amended: when an illegal character is fed from the idle state after a
successfully lexed prefix, the whole lex aborts with an error carrying that
character, its 0-based line number (count of newlines in the prefix) and its
1-based column number (characters since the last newline, plus one). -/
theorem illegal_char_error_position (cs : List Char) (c : Char) (l : Lexer)
    (h : Lexer.feedList initLexer cs = .ok l) (hs : l.state = .None)
    (hill : isIllegalChar c = true) :
    Lexer.feedList initLexer (cs ++ [c]) =
      .err ⟨c, (posAfter (0, 0) cs).1, (posAfter (0, 0) cs).2 + 1, "<>|-+()[].,*&|/="⟩ := by
  rw [feedList_append_ok cs initLexer l [c] h]
  have hf := feed_illegal l c hs hill
  simp only [Lexer.feedList, hf]
  have hpos : (l.line, l.column) = posAfter (0, 0) cs := feedList_pos cs initLexer l h
  obtain ⟨hbl, hbc⟩ := bump_not_newline l c (illegal_not_newline c hill)
  rw [hbl, hbc]
  rw [show l.line = (posAfter (0, 0) cs).1 from congrArg Prod.fst hpos,
    show l.column = (posAfter (0, 0) cs).2 from congrArg Prod.snd hpos]

/-- C8 witness: the amended theorem applied to the empty prefix and the
concrete illegal character '#'. -/
theorem illegal_char_error_position_witness :
    Lexer.feedList initLexer ([] ++ ['#']) =
      .err ⟨'#', (posAfter (0, 0) []).1, (posAfter (0, 0) []).2 + 1, "<>|-+()[].,*&|/="⟩ :=
  illegal_char_error_position [] '#' initLexer rfl rfl (by decide)

/-- C9: on an exhausted parser cursor (empty token queue), pop returns the
OutOfTokens error, and expect, expect_string, expect_number and
expect_identifier all return OutOfTokens as well; none of them is an
unchecked failure. -/
theorem exhausted_cursor_out_of_tokens (p : Parser) (t : Token) (h : p.tokens = []) :
    p.pop = .error .OutOfTokens ∧ p.expect t = .error .OutOfTokens ∧
    p.expect_string = .error .OutOfTokens ∧ p.expect_number = .error .OutOfTokens ∧
    p.expect_identifier = .error .OutOfTokens := by
  obtain ⟨toks⟩ := p
  subst h
  exact ⟨rfl, rfl, rfl, rfl, rfl⟩

/-- C9 witness: the theorem applied to the concrete empty cursor with the
SELECT token as the expectation. -/
theorem exhausted_cursor_out_of_tokens_witness :
    Parser.pop ⟨[]⟩ = .error .OutOfTokens ∧
    Parser.expect ⟨[]⟩ Token.SELECT = .error .OutOfTokens ∧
    Parser.expect_string ⟨[]⟩ = .error .OutOfTokens ∧
    Parser.expect_number ⟨[]⟩ = .error .OutOfTokens ∧
    Parser.expect_identifier ⟨[]⟩ = .error .OutOfTokens :=
  exhausted_cursor_out_of_tokens ⟨[]⟩ Token.SELECT rfl

/-- C10: `next_state` never returns the Operator or Comment state, feed
never reaches the panicking `expect` in the Operator branch of the None
arm, the feed loop started from the initial lexer never leaves the lexer in
the Operator state, and `Lexer::lex` never panics: it always returns either
a parser or an error. -/
theorem lexer_never_panics :
    (∀ (l : Lexer) (c : Char),
      l.next_state c ≠ .ok .Operator ∧ l.next_state c ≠ .ok .Comment) ∧
    (∀ (l : Lexer) (c c' : Char), l.feed c ≠ .panicked c') ∧
    (∀ (s : String) (c' : Char), Lexer.lex s ≠ .panicked c') ∧
    (∀ (s : String), (∃ p, Lexer.lex s = .ok p) ∨ (∃ e, Lexer.lex s = .err e)) ∧
    (∀ (cs : List Char) (l' : Lexer),
      Lexer.feedList initLexer cs = .ok l' → l'.state ≠ .Operator) := by
  refine ⟨?_, ?_, ?_, ?_, ?_⟩
  · intro l c
    rcases next_state_cases l c with h | h | h | h | h | h <;> rw [h] <;>
      exact ⟨by simp, by simp⟩
  · exact fun l c c' => feed_no_panic l c c'
  · intro s c'
    unfold Lexer.lex
    cases hf : initLexer.feedList s.data with
    | ok l => simp
    | err e => simp
    | panicked c2 => exact absurd hf (feedList_no_panic s.data initLexer c2)
  · intro s
    unfold Lexer.lex
    cases hf : initLexer.feedList s.data with
    | ok l => exact Or.inl ⟨_, rfl⟩
    | err e => exact Or.inr ⟨_, rfl⟩
    | panicked c2 => exact absurd hf (feedList_no_panic s.data initLexer c2)
  · intro cs l' h
    exact feedList_ok_no_operator cs initLexer l' h (by simp [initLexer])

/-- C10 witness: the final conjunct applied to the concrete input "a",
whose feed loop ends in the Text state. -/
theorem lexer_never_panics_witness :
    (⟨[], 'a', "a", State.Text, 0, 1⟩ : Lexer).state ≠ State.Operator :=
  lexer_never_panics.2.2.2.2 ("a").data ⟨[], 'a', "a", State.Text, 0, 1⟩ rfl

end Shard
